import Mathlib

set_option maxRecDepth 100000

/-!
Verification development for the PyScript/Pyodide browser calculator
(`src/main.py`).  The core under study is

  * `safe_eval(expr)`  = `ast.parse(expr, mode="eval")` followed by
    `_eval_node(tree)`, where `_eval_node` walks the Python AST and
    whitelists `Expression` / `BinOp` / `UnaryOp` / `Constant` nodes; and
  * the display normalisation performed by `calculate_expression`
    (lines 76-81 of `main.py`).

Modelling conventions
 * Python numbers are embedded exactly: `int` as `ℤ`, `float` as `ℚ`
   (the rational value the float denotes).  IEEE-754 rounding, overflow
   to `inf`, and underflow are not modelled; all the claims under study
   concern values on which float64 arithmetic is exact.
 * Python `bool` is kept as a separate value constructor because
   `type(result).__name__` distinguishes it, but arithmetic coerces it
   to `int` exactly as CPython does (`bool` is a subclass of `int`,
   which is why the `isinstance(node.value, (int, float))` whitelist
   accepts boolean literals).
 * CPython `float.__pow__` with a negative base and a non-integral
   exponent falls back to complex pow and *returns a complex number*.
   Complex results are represented by the payload-free constructor
   `PyVal.vComplex`: their components are transcendental in general and
   no claim depends on them.  Consequently zero-tests inside later
   complex arithmetic (e.g. division by a complex expression that
   happens to be `0j`) are not modelled: operations on complex operands
   other than `%` and `//` (which CPython rejects with `TypeError`)
   simply yield `vComplex` again.
 * Exception classes are modelled by `PyErr`: `parseError` stands for
   Python `SyntaxError` raised by `ast.parse`, `valueError` for the
   `ValueError`s raised by `_eval_node`, `zeroDivisionError` and
   `typeMismatchError` for `ZeroDivisionError` / `TypeError` raised by
   the arithmetic itself.  Message texts follow CPython 3.11 (the
   interpreter Pyodide ships).
-/

/-- Python exceptions that `safe_eval` can raise.  `parseError` models
`SyntaxError` from `ast.parse`; the other constructors model the
exception classes raised during `_eval_node`. -/
inductive PyErr where
  | parseError (msg : String)
  | valueError (msg : String)
  | zeroDivisionError (msg : String)
  | typeMismatchError (msg : String)
deriving DecidableEq, Repr

/-- Python runtime values that can flow through `_eval_node`:
integers, floats (embedded exactly as rationals), booleans, and the
complex numbers produced by fractional powers of negative bases
(payload not modelled; see the file header). -/
inductive PyVal where
  | vInt (n : ℤ)
  | vFloat (q : ℚ)
  | vBool (b : Bool)
  | vComplex
deriving DecidableEq, Repr

/-- `type(v).__name__` for the values above. -/
def typeName : PyVal → String
  | .vInt _ => "int"
  | .vFloat _ => "float"
  | .vBool _ => "bool"
  | .vComplex => "complex"

/-- Numeric classification used by CPython's binary-operator dispatch:
booleans behave as the integers 0/1, floats as their exact rational
value, complex numbers are opaque. -/
inductive NumClass where
  | nInt (n : ℤ)
  | nFloat (q : ℚ)
  | nCpx
deriving DecidableEq, Repr

/-- Classify a value the way Python's numeric coercion does
(`bool` coerces to `int`). -/
def numClass : PyVal → NumClass
  | .vInt n => .nInt n
  | .vBool b => .nInt (cond b 1 0)
  | .vFloat q => .nFloat q
  | .vComplex => .nCpx

/-- The exact rational value of a real (non-complex) Python number;
`none` for complex values. -/
def numVal (v : PyVal) : Option ℚ :=
  match numClass v with
  | .nInt n => some (n : ℚ)
  | .nFloat q => some q
  | .nCpx => none

/-- `true` exactly on values for which Python's `isinstance(v, float)`
holds (used by the display-normalisation step; note that it is false on
`bool` and `int`). -/
def is_float : PyVal → Bool
  | .vFloat _ => true
  | _ => false

/-! ### The AST fragment

These mirror the `ast` module classes that can appear when parsing the
constructs named by the claims: arithmetic (`BinOp`/`UnaryOp`/
`Constant`), plus identifiers (`Name`), comparisons (`Compare`),
boolean operators (`BoolOp`, and `not` which Python represents as a
`UnaryOp`), and calls (`Call`). -/

/-- `ast.operator`: the binary operators the parser fragment emits. -/
inductive Operator where
  | add | sub | mult | div | mod | floorDiv | pow
deriving DecidableEq, Repr

/-- `ast.unaryop`: `UAdd`, `USub`, plus `Not`/`Invert` which Python also
represents as unary operators (and which `_eval_node` rejects). -/
inductive UnaryOperator where
  | uAdd | uSub | uNot | uInvert
deriving DecidableEq, Repr

/-- `ast.cmpop` (all rejected by `_eval_node`). -/
inductive CmpOp where
  | lt | gt | le | ge | eq | ne
deriving DecidableEq, Repr

/-- `ast.boolop`. -/
inductive BoolOpKind where
  | andOp | orOp
deriving DecidableEq, Repr

/-- Payload of an `ast.Constant` node. -/
inductive Const where
  | cInt (n : ℤ)
  | cFloat (q : ℚ)
  | cBool (b : Bool)
  | cStr (s : String)
  | cNone
deriving DecidableEq, Repr

/-- The `ast.expr` fragment relevant to the claims.  `boolOp` is folded
to binary form (CPython stores an operand list; `_eval_node` rejects
the node either way, so only the node kind matters).  `tuple` is the
`ast.Tuple` display that `()`, `(1,)`, `(1, 2)` and bare top-level
`1, 2` parse to (and which `_eval_node` rejects). -/
inductive Expr where
  | constant (c : Const)
  | binOp (left : Expr) (op : Operator) (right : Expr)
  | unaryOp (op : UnaryOperator) (operand : Expr)
  | name (id : String)
  | compare (left : Expr) (pairs : List (CmpOp × Expr))
  | boolOp (op : BoolOpKind) (left right : Expr)
  | call (func : Expr) (args : List Expr)
  | tuple (elts : List Expr)
deriving Repr

/-! ### Binary operator semantics (`left <op> right` in `_eval_node`) -/

/-- The CPython `TypeError` message
`unsupported operand type(s) for <op>: '<t1>' and '<t2>'`
(the single quotes are built from their code point). -/
def unsupportedOperandMsg (op t1 t2 : String) : String :=
  let q := (Char.ofNat 39).toString
  "unsupported operand type(s) for " ++ op ++ ": " ++ q ++ t1 ++ q ++
    " and " ++ q ++ t2 ++ q

/-- Python `left + right` on calculator values. -/
def pyAdd (l r : PyVal) : Except PyErr PyVal :=
  match numClass l, numClass r with
  | .nCpx, _ => .ok .vComplex
  | _, .nCpx => .ok .vComplex
  | .nInt a, .nInt b => .ok (.vInt (a + b))
  | .nInt a, .nFloat b => .ok (.vFloat ((a : ℚ) + b))
  | .nFloat a, .nInt b => .ok (.vFloat (a + (b : ℚ)))
  | .nFloat a, .nFloat b => .ok (.vFloat (a + b))

/-- Python `left - right`. -/
def pySub (l r : PyVal) : Except PyErr PyVal :=
  match numClass l, numClass r with
  | .nCpx, _ => .ok .vComplex
  | _, .nCpx => .ok .vComplex
  | .nInt a, .nInt b => .ok (.vInt (a - b))
  | .nInt a, .nFloat b => .ok (.vFloat ((a : ℚ) - b))
  | .nFloat a, .nInt b => .ok (.vFloat (a - (b : ℚ)))
  | .nFloat a, .nFloat b => .ok (.vFloat (a - b))

/-- Python `left * right`. -/
def pyMul (l r : PyVal) : Except PyErr PyVal :=
  match numClass l, numClass r with
  | .nCpx, _ => .ok .vComplex
  | _, .nCpx => .ok .vComplex
  | .nInt a, .nInt b => .ok (.vInt (a * b))
  | .nInt a, .nFloat b => .ok (.vFloat ((a : ℚ) * b))
  | .nFloat a, .nInt b => .ok (.vFloat (a * (b : ℚ)))
  | .nFloat a, .nFloat b => .ok (.vFloat (a * b))

/-- Python `left / right`: true division always produces a float;
division by zero raises `ZeroDivisionError` whose message depends on
the operand types (CPython 3.11 texts). -/
def pyDiv (l r : PyVal) : Except PyErr PyVal :=
  match numClass l, numClass r with
  | _, .nCpx => .ok .vComplex
  | .nCpx, .nInt b =>
      if b = 0 then .error (.zeroDivisionError "complex division by zero")
      else .ok .vComplex
  | .nCpx, .nFloat b =>
      if b = 0 then .error (.zeroDivisionError "complex division by zero")
      else .ok .vComplex
  | .nInt a, .nInt b =>
      if b = 0 then .error (.zeroDivisionError "division by zero")
      else .ok (.vFloat ((a : ℚ) / (b : ℚ)))
  | .nInt a, .nFloat b =>
      if b = 0 then .error (.zeroDivisionError "float division by zero")
      else .ok (.vFloat ((a : ℚ) / b))
  | .nFloat a, .nInt b =>
      if b = 0 then .error (.zeroDivisionError "float division by zero")
      else .ok (.vFloat (a / (b : ℚ)))
  | .nFloat a, .nFloat b =>
      if b = 0 then .error (.zeroDivisionError "float division by zero")
      else .ok (.vFloat (a / b))

/-- Python `left % right`: the Python reference defines `x % y` as
`x - y*(x // y)` with `//` the mathematical floor of the quotient, so
the sign of a nonzero result matches the divisor.  The int form stays
an int, the float form a float; complex operands are rejected with
`TypeError` because `complex` has no `__mod__`. -/
def pyMod (l r : PyVal) : Except PyErr PyVal :=
  match numClass l, numClass r with
  | .nCpx, _ =>
      .error (.typeMismatchError (unsupportedOperandMsg "%" (typeName l) (typeName r)))
  | _, .nCpx =>
      .error (.typeMismatchError (unsupportedOperandMsg "%" (typeName l) (typeName r)))
  | .nInt a, .nInt b =>
      if b = 0 then .error (.zeroDivisionError "integer modulo by zero")
      else .ok (.vInt (a - b * ⌊(a : ℚ) / (b : ℚ)⌋))
  | .nInt a, .nFloat b =>
      if b = 0 then .error (.zeroDivisionError "float modulo")
      else .ok (.vFloat ((a : ℚ) - b * ⌊(a : ℚ) / b⌋))
  | .nFloat a, .nInt b =>
      if b = 0 then .error (.zeroDivisionError "float modulo")
      else .ok (.vFloat (a - (b : ℚ) * ⌊a / (b : ℚ)⌋))
  | .nFloat a, .nFloat b =>
      if b = 0 then .error (.zeroDivisionError "float modulo")
      else .ok (.vFloat (a - b * ⌊a / b⌋))

/-- Python `left // right`: floor division, i.e. the mathematical floor
of the exact quotient (the Python reference's definition), an int for
int operands and a float otherwise.  Complex operands are rejected with
`TypeError`. -/
def pyFloorDiv (l r : PyVal) : Except PyErr PyVal :=
  match numClass l, numClass r with
  | .nCpx, _ =>
      .error (.typeMismatchError (unsupportedOperandMsg "//" (typeName l) (typeName r)))
  | _, .nCpx =>
      .error (.typeMismatchError (unsupportedOperandMsg "//" (typeName l) (typeName r)))
  | .nInt a, .nInt b =>
      if b = 0 then .error (.zeroDivisionError "integer division or modulo by zero")
      else .ok (.vInt ⌊(a : ℚ) / (b : ℚ)⌋)
  | .nInt a, .nFloat b =>
      if b = 0 then .error (.zeroDivisionError "float floor division by zero")
      else .ok (.vFloat (⌊(a : ℚ) / b⌋ : ℤ))
  | .nFloat a, .nInt b =>
      if b = 0 then .error (.zeroDivisionError "float floor division by zero")
      else .ok (.vFloat (⌊a / (b : ℚ)⌋ : ℤ))
  | .nFloat a, .nFloat b =>
      if b = 0 then .error (.zeroDivisionError "float floor division by zero")
      else .ok (.vFloat (⌊a / b⌋ : ℤ))

/-- Rational stand-in for the float64 value of `a ** b` when `a > 0`
and `b` is non-integral.  The true value is transcendental in general
and is not modelled; no claim depends on this number, only on the fact
that CPython returns an ordinary (real) float in this case. -/
def ratPowApprox (a b : ℚ) : ℚ := a ^ ⌊b⌋

/-- Python `left ** right`, following CPython's `float_pow` /
`long_pow` case analysis: integer base and non-negative integer
exponent give an integer; a negative integer exponent gives a float;
`0 ** negative` raises `ZeroDivisionError`; a negative base with a
non-integral exponent falls back to complex pow and *returns a complex
number* (it does not raise). -/
def pyPow (l r : PyVal) : Except PyErr PyVal :=
  match numClass l, numClass r with
  | .nCpx, _ => .ok .vComplex
  | _, .nCpx => .ok .vComplex
  | .nInt a, .nInt b =>
      if 0 ≤ b then .ok (.vInt (a ^ b.toNat))
      else if a = 0 then
        .error (.zeroDivisionError "0.0 cannot be raised to a negative power")
      else .ok (.vFloat ((a : ℚ) ^ b))
  | .nInt a, .nFloat b => pyFloatPow (a : ℚ) b
  | .nFloat a, .nInt b => pyFloatPow a (b : ℚ)
  | .nFloat a, .nFloat b => pyFloatPow a b
where
  /-- `float.__pow__` on exact rational operands. -/
  pyFloatPow (a b : ℚ) : Except PyErr PyVal :=
    if b.den = 1 then
      if a = 0 ∧ b < 0 then
        .error (.zeroDivisionError "0.0 cannot be raised to a negative power")
      else .ok (.vFloat (a ^ b.num))
    else if a < 0 then .ok .vComplex
    else if a = 0 then
      if b < 0 then
        .error (.zeroDivisionError "0.0 cannot be raised to a negative power")
      else .ok (.vFloat 0)
    else .ok (.vFloat (ratPowApprox a b))

/-! ### `_eval_node` -/

/-- Python `+val` / `-val` / `not val` / `~val` as applied by
`_eval_node`'s `UnaryOp` branch (which raises
`ValueError("Unsupported unary operator")` for anything but
`UAdd`/`USub`).  Unary plus and minus coerce `bool` to `int` exactly
as CPython does. -/
def pyUnary (op : UnaryOperator) (v : PyVal) : Except PyErr PyVal :=
  match op with
  | .uAdd =>
      match numClass v with
      | .nInt n => .ok (.vInt n)
      | .nFloat q => .ok (.vFloat q)
      | .nCpx => .ok .vComplex
  | .uSub =>
      match numClass v with
      | .nInt n => .ok (.vInt (-n))
      | .nFloat q => .ok (.vFloat (-q))
      | .nCpx => .ok .vComplex
  | .uNot => .error (.valueError "Unsupported unary operator")
  | .uInvert => .error (.valueError "Unsupported unary operator")

/-- The operator dispatch of `_eval_node`'s `BinOp` branch (main.py
lines 22-36): the `isinstance(node.op, ...)` ladder.  The
`ValueError("Unsupported operator")` fallthrough of line 36 is
unreachable here because `Operator` is exactly the closed set the
modelled parser fragment emits. -/
def applyBinOp (op : Operator) (left right : PyVal) : Except PyErr PyVal :=
  match op with
  | .add => pyAdd left right
  | .sub => pySub left right
  | .mult => pyMul left right
  | .div => pyDiv left right
  | .mod => pyMod left right
  | .floorDiv => pyFloorDiv left right
  | .pow => pyPow left right

/-- `type(node).__name__` for the AST fragment, used in the
`Unsupported expression type: ...` message. -/
def astTypeName : Expr → String
  | .constant _ => "Constant"
  | .binOp _ _ _ => "BinOp"
  | .unaryOp _ _ => "UnaryOp"
  | .name _ => "Name"
  | .compare _ _ => "Compare"
  | .boolOp _ _ _ => "BoolOp"
  | .call _ _ => "Call"
  | .tuple _ => "Tuple"

/-- `_eval_node` (main.py lines 13-55) on the body of the parsed
`Expression` (the `ast.Expression` root wrapper of line 15-16 is
unwrapped by `safe_eval` below).  Branches, in source order:
`BinOp` evaluates both children then dispatches on the operator;
`UnaryOp` evaluates the operand then dispatches; `Constant` returns
the value when `isinstance(value, (int, float))` — which is true for
`bool`, a subclass of `int` — and otherwise raises
`ValueError("Only int/float constants allowed")`; every other node
kind raises `ValueError(f"Unsupported expression type: ...")`.
(The `ast.Num` branch of lines 52-53 is dead for 3.8+ parser output,
which always produces `Constant`, and is omitted.) -/
def eval_node : Expr → Except PyErr PyVal
  | .binOp l op r => do
      let left ← eval_node l
      let right ← eval_node r
      applyBinOp op left right
  | .unaryOp op e => do
      let val ← eval_node e
      pyUnary op val
  | .constant c =>
      match c with
      | .cInt n => .ok (.vInt n)
      | .cFloat q => .ok (.vFloat q)
      | .cBool b => .ok (.vBool b)
      | .cStr _ => .error (.valueError "Only int/float constants allowed")
      | .cNone => .error (.valueError "Only int/float constants allowed")
  | e => .error (.valueError ("Unsupported expression type: " ++ astTypeName e))

/-! ### `ast.parse(expr, mode="eval")`

`main.py` delegates parsing to the CPython parser.  The definitions
below model that parser on the grammar fragment the claims are about:
arithmetic (numbers, `+ - * / % // **`, unary `+ - ~`, parentheses),
identifiers, single/double-quoted string literals (without escape
sequences), `True`/`False`/`None`, comparisons, `and`/`or`/`not`,
call syntax, tuple displays (the empty display `()`, parenthesised
`(1,)` / `(1, 2)`, and bare top-level `1, 2`), and the `=` token
(which is a syntax error in `eval` mode).  Grammar levels and
precedence follow the CPython grammar:
`disjunction` / `conjunction` / `inversion` / `comparison` / `sum` /
`term` / `factor` / `power` / `primary` / `atom`.  Out of scope (no
claim mentions them): exponent-notation float literals, leading-zero
rejection for int literals, ternary `if`, attribute/subscript access,
keyword arguments, bitwise and shift operators. -/

/-- Tokens of the modelled fragment. -/
inductive Tok where
  | tInt (n : ℕ)
  | tFloat (q : ℚ)
  | tStr (s : String)
  | tName (s : String)
  | tTrue | tFalse | tNone
  | tAnd | tOr | tNot
  | tPlus | tMinus | tStar | tDStar | tSlash | tDSlash | tPercent
  | tLParen | tRParen | tComma | tAssign | tTilde
  | tLt | tGt | tLe | tGe | tEqEq | tNe
deriving DecidableEq, Repr

/-- Decimal value of a digit run. -/
def natOfDigits (ds : List Char) : ℕ :=
  ds.foldl (fun acc c => 10 * acc + (c.toNat - 48)) 0

/-- Characters that may continue an identifier. -/
def isIdentChar (c : Char) : Bool :=
  c.isAlphanum || c = Char.ofNat 95

/-- Characters that may start an identifier. -/
def isIdentStart (c : Char) : Bool :=
  c.isAlpha || c = Char.ofNat 95

/-- Keyword lookup for a lexed identifier. -/
def keywordTok (s : String) : Tok :=
  if s = "True" then .tTrue
  else if s = "False" then .tFalse
  else if s = "None" then .tNone
  else if s = "and" then .tAnd
  else if s = "or" then .tOr
  else if s = "not" then .tNot
  else .tName s

/-- The single-quote character (written via its code point to keep the
source free of quote-escape literals). -/
def squote : Char := Char.ofNat 39

/-- Lexer.  `fuel` only bounds the recursion (every step consumes at
least one character, so `length + 1` fuel never runs out). -/
def tokenizeAux : Nat → List Char → Except PyErr (List Tok)
  | 0, _ => .error (.parseError "lexer fuel exhausted")
  | fuel + 1, cs =>
    match cs with
    | [] => .ok []
    | '*' :: '*' :: rest => (Tok.tDStar :: ·) <$> tokenizeAux fuel rest
    | '*' :: rest => (Tok.tStar :: ·) <$> tokenizeAux fuel rest
    | '/' :: '/' :: rest => (Tok.tDSlash :: ·) <$> tokenizeAux fuel rest
    | '/' :: rest => (Tok.tSlash :: ·) <$> tokenizeAux fuel rest
    | '=' :: '=' :: rest => (Tok.tEqEq :: ·) <$> tokenizeAux fuel rest
    | '=' :: rest => (Tok.tAssign :: ·) <$> tokenizeAux fuel rest
    | '!' :: '=' :: rest => (Tok.tNe :: ·) <$> tokenizeAux fuel rest
    | '<' :: '=' :: rest => (Tok.tLe :: ·) <$> tokenizeAux fuel rest
    | '<' :: rest => (Tok.tLt :: ·) <$> tokenizeAux fuel rest
    | '>' :: '=' :: rest => (Tok.tGe :: ·) <$> tokenizeAux fuel rest
    | '>' :: rest => (Tok.tGt :: ·) <$> tokenizeAux fuel rest
    | '+' :: rest => (Tok.tPlus :: ·) <$> tokenizeAux fuel rest
    | '-' :: rest => (Tok.tMinus :: ·) <$> tokenizeAux fuel rest
    | '%' :: rest => (Tok.tPercent :: ·) <$> tokenizeAux fuel rest
    | '(' :: rest => (Tok.tLParen :: ·) <$> tokenizeAux fuel rest
    | ')' :: rest => (Tok.tRParen :: ·) <$> tokenizeAux fuel rest
    | ',' :: rest => (Tok.tComma :: ·) <$> tokenizeAux fuel rest
    | '~' :: rest => (Tok.tTilde :: ·) <$> tokenizeAux fuel rest
    | c :: rest =>
      if c.isWhitespace then tokenizeAux fuel rest
      else if c.isDigit then
        let ds := (c :: rest).takeWhile Char.isDigit
        let after := (c :: rest).dropWhile Char.isDigit
        match after with
        | '.' :: rest2 =>
            let fs := rest2.takeWhile Char.isDigit
            let rest3 := rest2.dropWhile Char.isDigit
            let q : ℚ := (natOfDigits ds : ℚ) +
              (natOfDigits fs : ℚ) / (10 : ℚ) ^ fs.length
            (Tok.tFloat q :: ·) <$> tokenizeAux fuel rest3
        | _ => (Tok.tInt (natOfDigits ds) :: ·) <$> tokenizeAux fuel after
      else if isIdentStart c then
        let ident := (c :: rest).takeWhile isIdentChar
        let after := (c :: rest).dropWhile isIdentChar
        (keywordTok (String.mk ident) :: ·) <$> tokenizeAux fuel after
      else if c = '"' || c = squote then
        let body := rest.takeWhile (· ≠ c)
        match rest.dropWhile (· ≠ c) with
        | _ :: rest2 => (Tok.tStr (String.mk body) :: ·) <$> tokenizeAux fuel rest2
        | [] => .error (.parseError "unterminated string literal")
      else .error (.parseError "invalid character")

/-- Lex a whole source string. -/
def tokenize (s : String) : Except PyErr (List Tok) :=
  tokenizeAux (s.data.length + 1) s.data

/-- Comparison-operator tokens. -/
def cmpTok : Tok → Option CmpOp
  | .tLt => some .lt
  | .tGt => some .gt
  | .tLe => some .le
  | .tGe => some .ge
  | .tEqEq => some .eq
  | .tNe => some .ne
  | _ => none

/-- `term`-level operator tokens. -/
def termOpTok : Tok → Option Operator
  | .tStar => some .mult
  | .tSlash => some .div
  | .tDSlash => some .floorDiv
  | .tPercent => some .mod
  | _ => none

/-- `sum`-level operator tokens. -/
def sumOpTok : Tok → Option Operator
  | .tPlus => some .add
  | .tMinus => some .sub
  | _ => none

mutual

/-- `disjunction: conjunction ('or' conjunction)*` (top rule of the
modelled `eval`-mode grammar). -/
def parseExpression : Nat → List Tok → Except PyErr (Expr × List Tok)
  | 0, _ => .error (.parseError "parser fuel exhausted")
  | fuel + 1, toks => do
      let (l, rest) ← parseConjunction fuel toks
      parseOrRest fuel l rest

/-- Fold further `or` operands onto `acc`. -/
def parseOrRest : Nat → Expr → List Tok → Except PyErr (Expr × List Tok)
  | 0, _, _ => .error (.parseError "parser fuel exhausted")
  | fuel + 1, acc, toks =>
      match toks with
      | .tOr :: rest => do
          let (r, rest2) ← parseConjunction fuel rest
          parseOrRest fuel (.boolOp .orOp acc r) rest2
      | _ => .ok (acc, toks)

/-- `conjunction: inversion ('and' inversion)*`. -/
def parseConjunction : Nat → List Tok → Except PyErr (Expr × List Tok)
  | 0, _ => .error (.parseError "parser fuel exhausted")
  | fuel + 1, toks => do
      let (l, rest) ← parseInversion fuel toks
      parseAndRest fuel l rest

/-- Fold further `and` operands onto `acc`. -/
def parseAndRest : Nat → Expr → List Tok → Except PyErr (Expr × List Tok)
  | 0, _, _ => .error (.parseError "parser fuel exhausted")
  | fuel + 1, acc, toks =>
      match toks with
      | .tAnd :: rest => do
          let (r, rest2) ← parseInversion fuel rest
          parseAndRest fuel (.boolOp .andOp acc r) rest2
      | _ => .ok (acc, toks)

/-- `inversion: 'not' inversion | comparison`. -/
def parseInversion : Nat → List Tok → Except PyErr (Expr × List Tok)
  | 0, _ => .error (.parseError "parser fuel exhausted")
  | fuel + 1, toks =>
      match toks with
      | .tNot :: rest => do
          let (e, rest2) ← parseInversion fuel rest
          .ok (.unaryOp .uNot e, rest2)
      | _ => parseComparison fuel toks

/-- `comparison: sum (cmpop sum)*`; a nonempty chain becomes a
`Compare` node. -/
def parseComparison : Nat → List Tok → Except PyErr (Expr × List Tok)
  | 0, _ => .error (.parseError "parser fuel exhausted")
  | fuel + 1, toks => do
      let (l, rest) ← parseSum fuel toks
      let (pairs, rest2) ← parseCmpRest fuel rest
      match pairs with
      | [] => .ok (l, rest2)
      | _ => .ok (.compare l pairs, rest2)

/-- Collect `(cmpop, sum)` pairs. -/
def parseCmpRest : Nat → List Tok →
    Except PyErr (List (CmpOp × Expr) × List Tok)
  | 0, _ => .error (.parseError "parser fuel exhausted")
  | fuel + 1, toks =>
      match toks with
      | t :: rest =>
          match cmpTok t with
          | some op => do
              let (r, rest2) ← parseSum fuel rest
              let (pairs, rest3) ← parseCmpRest fuel rest2
              .ok ((op, r) :: pairs, rest3)
          | none => .ok ([], toks)
      | [] => .ok ([], [])

/-- `sum: term (('+' | '-') term)*`, left-associative. -/
def parseSum : Nat → List Tok → Except PyErr (Expr × List Tok)
  | 0, _ => .error (.parseError "parser fuel exhausted")
  | fuel + 1, toks => do
      let (l, rest) ← parseTerm fuel toks
      parseSumRest fuel l rest

/-- Fold further additive operands onto `acc`. -/
def parseSumRest : Nat → Expr → List Tok → Except PyErr (Expr × List Tok)
  | 0, _, _ => .error (.parseError "parser fuel exhausted")
  | fuel + 1, acc, toks =>
      match toks with
      | t :: rest =>
          match sumOpTok t with
          | some op => do
              let (r, rest2) ← parseTerm fuel rest
              parseSumRest fuel (.binOp acc op r) rest2
          | none => .ok (acc, toks)
      | [] => .ok (acc, [])

/-- `term: factor (('*' | '/' | '//' | '%') factor)*`,
left-associative. -/
def parseTerm : Nat → List Tok → Except PyErr (Expr × List Tok)
  | 0, _ => .error (.parseError "parser fuel exhausted")
  | fuel + 1, toks => do
      let (l, rest) ← parseFactor fuel toks
      parseTermRest fuel l rest

/-- Fold further multiplicative operands onto `acc`. -/
def parseTermRest : Nat → Expr → List Tok → Except PyErr (Expr × List Tok)
  | 0, _, _ => .error (.parseError "parser fuel exhausted")
  | fuel + 1, acc, toks =>
      match toks with
      | t :: rest =>
          match termOpTok t with
          | some op => do
              let (r, rest2) ← parseFactor fuel rest
              parseTermRest fuel (.binOp acc op r) rest2
          | none => .ok (acc, toks)
      | [] => .ok (acc, [])

/-- `factor: ('+' | '-' | '~') factor | power`. -/
def parseFactor : Nat → List Tok → Except PyErr (Expr × List Tok)
  | 0, _ => .error (.parseError "parser fuel exhausted")
  | fuel + 1, toks =>
      match toks with
      | .tPlus :: rest => do
          let (e, rest2) ← parseFactor fuel rest
          .ok (.unaryOp .uAdd e, rest2)
      | .tMinus :: rest => do
          let (e, rest2) ← parseFactor fuel rest
          .ok (.unaryOp .uSub e, rest2)
      | .tTilde :: rest => do
          let (e, rest2) ← parseFactor fuel rest
          .ok (.unaryOp .uInvert e, rest2)
      | _ => parsePower fuel toks

/-- `power: primary ['**' factor]` — the right operand re-enters
`factor`, which makes `**` right-associative and puts unary operators
below it on the left (`-2 ** 2` is `-(2 ** 2)`). -/
def parsePower : Nat → List Tok → Except PyErr (Expr × List Tok)
  | 0, _ => .error (.parseError "parser fuel exhausted")
  | fuel + 1, toks => do
      let (b, rest) ← parsePrimary fuel toks
      match rest with
      | .tDStar :: rest2 => do
          let (e, rest3) ← parseFactor fuel rest2
          .ok (.binOp b .pow e, rest3)
      | _ => .ok (b, rest)

/-- `primary: atom trailer*` where the only modelled trailer is a call
argument list (so `2(3)` parses to a `Call` node, exactly as CPython
accepts it syntactically). -/
def parsePrimary : Nat → List Tok → Except PyErr (Expr × List Tok)
  | 0, _ => .error (.parseError "parser fuel exhausted")
  | fuel + 1, toks => do
      let (a, rest) ← parseAtom fuel toks
      parseCallRest fuel a rest

/-- Fold call trailers onto `acc`. -/
def parseCallRest : Nat → Expr → List Tok → Except PyErr (Expr × List Tok)
  | 0, _, _ => .error (.parseError "parser fuel exhausted")
  | fuel + 1, acc, toks =>
      match toks with
      | .tLParen :: rest => do
          let (args, rest2) ← parseArgs fuel rest
          parseCallRest fuel (.call acc args) rest2
      | _ => .ok (acc, toks)

/-- Positional call arguments after `(`, up to and including the
closing `)` (a trailing comma is allowed, as in Python). -/
def parseArgs : Nat → List Tok → Except PyErr (List Expr × List Tok)
  | 0, _ => .error (.parseError "parser fuel exhausted")
  | fuel + 1, toks =>
      match toks with
      | .tRParen :: rest => .ok ([], rest)
      | _ => do
          let (e, rest) ← parseExpression fuel toks
          parseArgsRest fuel [e] rest

/-- Remaining call arguments (accumulated in reverse). -/
def parseArgsRest : Nat → List Expr → List Tok →
    Except PyErr (List Expr × List Tok)
  | 0, _, _ => .error (.parseError "parser fuel exhausted")
  | fuel + 1, acc, toks =>
      match toks with
      | .tComma :: .tRParen :: rest => .ok (acc.reverse, rest)
      | .tComma :: rest => do
          let (e, rest2) ← parseExpression fuel rest
          parseArgsRest fuel (e :: acc) rest2
      | .tRParen :: rest => .ok (acc.reverse, rest)
      | _ => .error (.parseError "invalid syntax")

/-- `atom`: literal, identifier, or a parenthesised expression or
tuple display — `()` is the empty tuple, `(e)` is just `e`, and
`(e, ...)` is a tuple, exactly as in CPython. -/
def parseAtom : Nat → List Tok → Except PyErr (Expr × List Tok)
  | 0, _ => .error (.parseError "parser fuel exhausted")
  | fuel + 1, toks =>
      match toks with
      | .tInt n :: rest => .ok (.constant (.cInt n), rest)
      | .tFloat q :: rest => .ok (.constant (.cFloat q), rest)
      | .tTrue :: rest => .ok (.constant (.cBool true), rest)
      | .tFalse :: rest => .ok (.constant (.cBool false), rest)
      | .tNone :: rest => .ok (.constant .cNone, rest)
      | .tStr s :: rest => .ok (.constant (.cStr s), rest)
      | .tName s :: rest => .ok (.name s, rest)
      | .tLParen :: .tRParen :: rest => .ok (.tuple [], rest)
      | .tLParen :: rest => do
          let (e, rest2) ← parseExpression fuel rest
          match rest2 with
          | .tRParen :: rest3 => .ok (e, rest3)
          | .tComma :: rest3 => parseTupleRest fuel [e] rest3
          | _ => .error (.parseError "invalid syntax")
      | _ => .error (.parseError "invalid syntax")

/-- Remaining elements of a parenthesised tuple display, after a
comma (accumulated in reverse; a trailing comma is allowed, as in
`(1, 2,)`). -/
def parseTupleRest : Nat → List Expr → List Tok →
    Except PyErr (Expr × List Tok)
  | 0, _, _ => .error (.parseError "parser fuel exhausted")
  | fuel + 1, acc, toks =>
      match toks with
      | .tRParen :: rest => .ok (.tuple acc.reverse, rest)
      | _ => do
          let (e, rest) ← parseExpression fuel toks
          match rest with
          | .tComma :: rest2 => parseTupleRest fuel (e :: acc) rest2
          | .tRParen :: rest2 => .ok (.tuple (e :: acc).reverse, rest2)
          | _ => .error (.parseError "invalid syntax")

end

/-- Remaining elements of a bare (unparenthesised) top-level tuple
such as `1, 2`, after the first comma; it ends at the end of the
input, and a trailing comma is allowed (`1,` is `Tuple([1])`). -/
def parseBareTupleRest : Nat → List Expr → List Tok → Except PyErr Expr
  | 0, _, _ => .error (.parseError "parser fuel exhausted")
  | fuel + 1, acc, toks =>
      match toks with
      | [] => .ok (.tuple acc.reverse)
      | _ => do
          let (e, rest) ← parseExpression fuel toks
          match rest with
          | [] => .ok (.tuple (e :: acc).reverse)
          | .tComma :: rest2 => parseBareTupleRest fuel (e :: acc) rest2
          | _ => .error (.parseError "invalid syntax")

/-- `ast.parse(expr, mode="eval")`: lex, parse one expression, then
either accept (no trailing tokens), continue into a bare top-level
tuple (a trailing comma, as in `1, 2`), or reject trailing tokens —
which is how `eval` mode rejects statements such as assignments:
after parsing the expression `x`, the input `x = 1` has a leftover
`=`.  The fuel bound exceeds the depth any input of that token count
can need. -/
def astParse (s : String) : Except PyErr Expr := do
  let toks ← tokenize s
  let (e, rest) ← parseExpression (32 * (toks.length + 1)) toks
  match rest with
  | [] => .ok e
  | .tComma :: rest2 => parseBareTupleRest (32 * (toks.length + 1)) [e] rest2
  | _ => .error (.parseError "invalid syntax")

/-- `safe_eval` (main.py lines 57-60): parse in `eval` mode, then walk
the tree with `_eval_node`. -/
def safe_eval (s : String) : Except PyErr PyVal := do
  let t ← astParse s
  eval_node t

/-- The display normalisation of `calculate_expression` (lines 78-79):
`if isinstance(result, float) and result.is_integer(): result =
int(result)`.  An exact float is integral exactly when its rational
value has denominator 1. -/
def normalizeResult (v : PyVal) : PyVal :=
  match v with
  | .vFloat q => if q.den = 1 then .vInt q.num else .vFloat q
  | v => v

/-- The rendered pair (line 80): the normalised value together with
`type(result).__name__`. -/
def displayed (v : PyVal) : PyVal × String :=
  let r := normalizeResult v
  (r, typeName r)

/-! ### Predicates used by the claims -/

/-- Trees containing (anywhere) one of the constructs the spec's
rejection sentence names: an identifier, a string literal, a
comparison, a boolean operator (`and`/`or`, and `not`/`~` which parse
as unary operators), or call syntax — plus tuple displays, which the
whitelist likewise rejects (so a disallowed construct nested inside a
tuple is still covered, via the tuple node itself).  Boolean literals
are deliberately *not* in this set: the `Constant` whitelist accepts
them because `bool` is a subclass of `int`. -/
def containsDisallowed : Expr → Bool
  | .constant (.cStr _) => true
  | .constant _ => false
  | .binOp l _ r => containsDisallowed l || containsDisallowed r
  | .unaryOp op e =>
      op == .uNot || op == .uInvert || containsDisallowed e
  | .name _ => true
  | .compare _ _ => true
  | .boolOp _ _ _ => true
  | .call _ _ => true
  | .tuple _ => true

/-- Tokens of the purely arithmetic sub-language: numeric literals, the
seven binary operators, unary `+`/`-` (the same tokens), and
parentheses. -/
def arithTok : Tok → Bool
  | .tInt _ | .tFloat _ | .tPlus | .tMinus | .tStar | .tDStar
  | .tSlash | .tDSlash | .tPercent | .tLParen | .tRParen => true
  | _ => false

/-- `tokenize` succeeds and yields only arithmetic tokens. -/
def arithInput (s : String) : Bool :=
  match tokenize s with
  | .ok toks => toks.all arithTok
  | .error _ => false

/-- Trees the parser can build from arithmetic tokens: numeric
constants, the seven binary operators, unary `+`/`-` — plus `Call`
nodes, which parenthesised-juxtaposition such as `2(3)` produces even
from arithmetic tokens, and `Tuple` nodes, which the empty display
`()` produces (both rejected outright by `_eval_node`, so their
contents are irrelevant). -/
def arithShaped : Expr → Bool
  | .constant (.cInt _) => true
  | .constant (.cFloat _) => true
  | .constant _ => false
  | .binOp l _ r => arithShaped l && arithShaped r
  | .unaryOp op e => (op == .uAdd || op == .uSub) && arithShaped e
  | .call _ _ => true
  | .tuple _ => true
  | _ => false

/-- Values that are numbers (int, float, or complex — not bool). -/
def isNumeric : PyVal → Bool
  | .vInt _ | .vFloat _ | .vComplex => true
  | .vBool _ => false

/-- The well-defined run-time errors arithmetic input can produce:
zero-division errors, `TypeError` on `%`/`//` of complex intermediates,
and the unsupported-node `ValueError`s raised when parentheses form
call syntax (`2(3)`) or an empty tuple display (`()`). -/
def arithRunError : PyErr → Bool
  | .zeroDivisionError _ => true
  | .typeMismatchError _ => true
  | .valueError m =>
      m == "Unsupported expression type: Call" ||
        m == "Unsupported expression type: Tuple"
  | .parseError _ => false

/-! ### Basic reduction lemmas -/

@[simp]
theorem exceptBind_ok {α β : Type} (a : α) (f : α → Except PyErr β) :
    (Except.ok a >>= f) = f a := rfl

@[simp]
theorem exceptBind_error {α β : Type} (e : PyErr) (f : α → Except PyErr β) :
    ((Except.error e : Except PyErr α) >>= f) = Except.error e := rfl

/-- A tree containing a disallowed construct never evaluates to a
value: `_eval_node` raises on the disallowed node when it reaches it,
and any error raised earlier (in an operand evaluated first) also
aborts evaluation. -/
theorem containsDisallowed_errors :
    ∀ t : Expr, containsDisallowed t = true → ∃ e, eval_node t = Except.error e
  | .constant c, h => by
      cases c with
      | cStr s => exact ⟨_, rfl⟩
      | _ => simp [containsDisallowed] at h
  | .name s, _ => ⟨_, rfl⟩
  | .compare l ps, _ => ⟨_, rfl⟩
  | .boolOp k l r, _ => ⟨_, rfl⟩
  | .call f as, _ => ⟨_, rfl⟩
  | .tuple es, _ => ⟨_, rfl⟩
  | .binOp l op r, h => by
      rw [containsDisallowed, Bool.or_eq_true] at h
      cases h with
      | inl hl =>
          obtain ⟨e, he⟩ := containsDisallowed_errors l hl
          exact ⟨e, by simp [eval_node, he]⟩
      | inr hr =>
          cases hev : eval_node l with
          | error e => exact ⟨e, by simp [eval_node, hev]⟩
          | ok v =>
              obtain ⟨e, he⟩ := containsDisallowed_errors r hr
              exact ⟨e, by simp [eval_node, hev, he]⟩
  | .unaryOp op e, h => by
      cases op with
      | uNot =>
          cases hev : eval_node e with
          | error e' => exact ⟨e', by simp [eval_node, hev]⟩
          | ok v =>
              exact ⟨.valueError "Unsupported unary operator",
                by simp [eval_node, hev, pyUnary]⟩
      | uInvert =>
          cases hev : eval_node e with
          | error e' => exact ⟨e', by simp [eval_node, hev]⟩
          | ok v =>
              exact ⟨.valueError "Unsupported unary operator",
                by simp [eval_node, hev, pyUnary]⟩
      | uAdd =>
          simp only [containsDisallowed, Bool.or_eq_true, beq_iff_eq,
            reduceCtorEq, false_or] at h
          obtain ⟨e', he⟩ := containsDisallowed_errors e h
          exact ⟨e', by simp [eval_node, he]⟩
      | uSub =>
          simp only [containsDisallowed, Bool.or_eq_true, beq_iff_eq,
            reduceCtorEq, false_or] at h
          obtain ⟨e', he⟩ := containsDisallowed_errors e h
          exact ⟨e', by simp [eval_node, he]⟩

/-! ### The claims -/

/-- C1 (corrected).  As stated the claim is false: the parse step of
`safe_eval` is the full CPython parser, so an input containing only a
boolean literal parses — and even evaluates — successfully (see the
counterexample), and inputs containing identifiers, string literals,
comparisons, boolean operators or calls also parse; they are rejected
only at evaluation time, by `ValueError`, not by `SyntaxError`.
Amended statement proved here: (1) evaluating any tree that contains an
identifier, string literal, comparison, boolean operator, or call
always fails with some error — never a silently wrong numeric result —
and (2) assignment, which is not an expression, is rejected by the
parse step itself with a `SyntaxError`. -/
theorem eval_rejects_nonarithmetic :
    (∀ t : Expr, containsDisallowed t = true →
      ∃ e, eval_node t = Except.error e) ∧
    (∃ m, astParse "x = 1" = Except.error (PyErr.parseError m)) :=
  ⟨containsDisallowed_errors, ⟨"invalid syntax", rfl⟩⟩

/-- Witness for C1's amended theorem at the identifier `x`. -/
theorem eval_rejects_nonarithmetic_wit :
    ∃ e, eval_node (Expr.name "x") = Except.error e :=
  eval_rejects_nonarithmetic.1 (Expr.name "x") rfl

/-- Counterexample to C1 as stated: `"True"` contains a boolean
literal, yet the parse step succeeds (no `SyntaxError`), and the whole
of `safe_eval` returns the boolean. -/
theorem bool_literal_parses_cx :
    astParse "True" = Except.ok (Expr.constant (Const.cBool true)) ∧
    safe_eval "True" = Except.ok (PyVal.vBool true) :=
  ⟨rfl, rfl⟩

/-- C7 (confirmed): conventional precedence — `2 + 3 * 4` parses with
`*` below `+` and evaluates to 14, `(2 + 3) * 4` evaluates to 20,
`2 ** 3 ** 2` parses right-associatively and evaluates to 512, and
`-2 ** 2` parses as `-(2 ** 2)` (unary below exponentiation) and
evaluates to -4. -/
theorem precedence_conventional :
    astParse "2 + 3 * 4" = Except.ok (Expr.binOp (Expr.constant (Const.cInt 2))
      Operator.add (Expr.binOp (Expr.constant (Const.cInt 3)) Operator.mult
        (Expr.constant (Const.cInt 4)))) ∧
    safe_eval "2 + 3 * 4" = Except.ok (PyVal.vInt 14) ∧
    safe_eval "(2 + 3) * 4" = Except.ok (PyVal.vInt 20) ∧
    astParse "2 ** 3 ** 2" = Except.ok (Expr.binOp (Expr.constant (Const.cInt 2))
      Operator.pow (Expr.binOp (Expr.constant (Const.cInt 3)) Operator.pow
        (Expr.constant (Const.cInt 2)))) ∧
    safe_eval "2 ** 3 ** 2" = Except.ok (PyVal.vInt 512) ∧
    astParse "-2 ** 2" = Except.ok (Expr.unaryOp UnaryOperator.uSub
      (Expr.binOp (Expr.constant (Const.cInt 2)) Operator.pow
        (Expr.constant (Const.cInt 2)))) ∧
    safe_eval "-2 ** 2" = Except.ok (PyVal.vInt (-4)) :=
  ⟨rfl, rfl, rfl, rfl, rfl, rfl, rfl⟩

/-- C8 (confirmed): the displayed result is normalised from the
computed value alone — a float with no fractional part is presented as
an int (type label "int"), any other float as a float (label "float");
`10 / 4` evaluates to 5/2 and displays as a float, `10 / 5` evaluates
to the whole float 2.0 and displays as the int 2. -/
theorem display_whole_float_as_int :
    (∀ q : ℚ, displayed (PyVal.vFloat q) =
      if q.den = 1 then (PyVal.vInt q.num, "int") else (PyVal.vFloat q, "float")) ∧
    safe_eval "10 / 4" = Except.ok (PyVal.vFloat (5/2)) ∧
    displayed (PyVal.vFloat (5/2)) = (PyVal.vFloat (5/2), "float") ∧
    safe_eval "10 / 5" = Except.ok (PyVal.vFloat 2) ∧
    displayed (PyVal.vFloat 2) = (PyVal.vInt 2, "int") := by
  refine ⟨fun q => ?_, by with_unfolding_all rfl, by with_unfolding_all rfl,
    by with_unfolding_all rfl, by with_unfolding_all rfl⟩
  by_cases h : q.den = 1 <;> simp [displayed, normalizeResult, typeName, h]

/-- C9 (confirmed): the `isinstance(node.value, (int, float))` check of
the `Constant` branch accepts booleans (`bool` is a subclass of `int`),
so boolean constants evaluate to themselves, `safe_eval("True")`
returns `True`, and `safe_eval("True + True")` returns the integer 2. -/
theorem bool_constants_accepted :
    (∀ b : Bool, eval_node (Expr.constant (Const.cBool b)) =
      Except.ok (PyVal.vBool b)) ∧
    safe_eval "True" = Except.ok (PyVal.vBool true) ∧
    safe_eval "True + True" = Except.ok (PyVal.vInt 2) :=
  ⟨fun _ => rfl, rfl, rfl⟩

/-! ### Numeric-class helper lemmas -/

/-- A value with a rational `numVal` is int-class (with that value) or
float-class. -/
theorem numVal_cases {v : PyVal} {a : ℚ} (h : numVal v = some a) :
    (∃ n : ℤ, numClass v = .nInt n ∧ (n : ℚ) = a) ∨ numClass v = .nFloat a := by
  unfold numVal at h
  rcases hc : numClass v with n | q | _ <;> rw [hc] at h <;> simp at h
  · exact Or.inl ⟨n, rfl, h⟩
  · exact Or.inr (by rw [h])

/-- Int-class values are not Python floats. -/
theorem isFloat_of_nInt {v : PyVal} {n : ℤ} (h : numClass v = .nInt n) :
    is_float v = false := by
  cases v <;> simp_all [numClass, is_float]

/-- Float-class values are Python floats. -/
theorem isFloat_of_nFloat {v : PyVal} {q : ℚ} (h : numClass v = .nFloat q) :
    is_float v = true := by
  cases v <;> simp_all [numClass, is_float]

/-- `pyDiv` with a real dividend and zero divisor always raises
`ZeroDivisionError`; the message is the int one for int-class operands
and the float one as soon as a float is involved. -/
theorem pyDiv_zero (v w : PyVal) (a : ℚ) (hv : numVal v = some a)
    (hw : numVal w = some 0) :
    pyDiv v w = .error (.zeroDivisionError
      (if is_float v || is_float w then "float division by zero"
       else "division by zero")) := by
  rcases numVal_cases hv with ⟨n, hcv, _⟩ | hcv <;>
    rcases numVal_cases hw with ⟨m, hcw, hm0⟩ | hcw
  · have hm : m = 0 := by exact_mod_cast hm0
    subst hm
    simp [pyDiv, hcv, hcw, isFloat_of_nInt hcv, isFloat_of_nInt hcw]
  · simp [pyDiv, hcv, hcw, isFloat_of_nInt hcv, isFloat_of_nFloat hcw]
  · have hm : m = 0 := by exact_mod_cast hm0
    subst hm
    simp [pyDiv, hcv, hcw, isFloat_of_nFloat hcv, isFloat_of_nInt hcw]
  · simp [pyDiv, hcv, hcw, isFloat_of_nFloat hcv, isFloat_of_nFloat hcw]

/-- `pyMod` with a real dividend and zero divisor raises
`ZeroDivisionError`. -/
theorem pyMod_zero (v w : PyVal) (a : ℚ) (hv : numVal v = some a)
    (hw : numVal w = some 0) :
    ∃ m, pyMod v w = .error (.zeroDivisionError m) := by
  rcases numVal_cases hv with ⟨n, hcv, _⟩ | hcv <;>
    rcases numVal_cases hw with ⟨m, hcw, hm0⟩ | hcw
  · have hm : m = 0 := by exact_mod_cast hm0
    subst hm
    exact ⟨"integer modulo by zero", by simp [pyMod, hcv, hcw]⟩
  · exact ⟨"float modulo", by simp [pyMod, hcv, hcw]⟩
  · have hm : m = 0 := by exact_mod_cast hm0
    subst hm
    exact ⟨"float modulo", by simp [pyMod, hcv, hcw]⟩
  · exact ⟨"float modulo", by simp [pyMod, hcv, hcw]⟩

/-- `pyFloorDiv` with a real dividend and zero divisor raises
`ZeroDivisionError`. -/
theorem pyFloorDiv_zero (v w : PyVal) (a : ℚ) (hv : numVal v = some a)
    (hw : numVal w = some 0) :
    ∃ m, pyFloorDiv v w = .error (.zeroDivisionError m) := by
  rcases numVal_cases hv with ⟨n, hcv, _⟩ | hcv <;>
    rcases numVal_cases hw with ⟨m, hcw, hm0⟩ | hcw
  · have hm : m = 0 := by exact_mod_cast hm0
    subst hm
    exact ⟨"integer division or modulo by zero", by simp [pyFloorDiv, hcv, hcw]⟩
  · exact ⟨"float floor division by zero", by simp [pyFloorDiv, hcv, hcw]⟩
  · have hm : m = 0 := by exact_mod_cast hm0
    subst hm
    exact ⟨"float floor division by zero", by simp [pyFloorDiv, hcv, hcw]⟩
  · exact ⟨"float floor division by zero", by simp [pyFloorDiv, hcv, hcw]⟩

/-- `float.__pow__` on a negative base with a non-integral exponent
returns a complex number. -/
theorem pyFloatPow_neg_frac (a b : ℚ) (ha : a < 0) (hb : b.den ≠ 1) :
    pyPow.pyFloatPow a b = .ok .vComplex := by
  unfold pyPow.pyFloatPow
  rw [if_neg hb, if_pos ha]

/-- `pyPow` on a negative real base and a non-integral real exponent
returns a complex number (the exponent is necessarily float-class,
since int-class exponents have denominator 1). -/
theorem pyPow_neg_frac (v w : PyVal) (a b : ℚ) (hv : numVal v = some a)
    (hw : numVal w = some b) (ha : a < 0) (hb : b.den ≠ 1) :
    pyPow v w = .ok .vComplex := by
  rcases numVal_cases hv with ⟨n, hcv, hna⟩ | hcv <;>
    rcases numVal_cases hw with ⟨m, hcw, hmb⟩ | hcw
  · exact absurd (hmb ▸ Rat.den_intCast m) hb
  · simp only [pyPow, hcv, hcw]
    rw [hna]
    exact pyFloatPow_neg_frac a b ha hb
  · exact absurd (hmb ▸ Rat.den_intCast m) hb
  · simp only [pyPow, hcv, hcw]
    exact pyFloatPow_neg_frac a b ha hb

/-- `pyFloorDiv` on real operands with nonzero divisor returns the
floor of the exact quotient. -/
theorem pyFloorDiv_floor (v w : PyVal) (a b : ℚ) (hv : numVal v = some a)
    (hw : numVal w = some b) (hb : b ≠ 0) :
    ∃ r, pyFloorDiv v w = .ok r ∧ numVal r = some ((⌊a / b⌋ : ℤ) : ℚ) := by
  rcases numVal_cases hv with ⟨n, hcv, hna⟩ | hcv <;>
    rcases numVal_cases hw with ⟨m, hcw, hmb⟩ | hcw
  · have hm : m ≠ 0 := fun h0 => hb (by rw [← hmb, h0]; norm_num)
    refine ⟨.vInt ⌊(n : ℚ) / (m : ℚ)⌋, by simp [pyFloorDiv, hcv, hcw, hm], ?_⟩
    simp [numVal, numClass, hna, hmb]
  · refine ⟨.vFloat ((⌊(n : ℚ) / b⌋ : ℤ) : ℚ),
      by simp [pyFloorDiv, hcv, hcw, hb], ?_⟩
    simp [numVal, numClass, hna]
  · have hm : m ≠ 0 := fun h0 => hb (by rw [← hmb, h0]; norm_num)
    refine ⟨.vFloat ((⌊a / (m : ℚ)⌋ : ℤ) : ℚ),
      by simp [pyFloorDiv, hcv, hcw, hm], ?_⟩
    simp [numVal, numClass, hmb]
  · refine ⟨.vFloat ((⌊a / b⌋ : ℤ) : ℚ),
      by simp [pyFloorDiv, hcv, hcw, hb], ?_⟩
    simp [numVal, numClass]

/-- `pyMod` on real operands with nonzero divisor returns
`a - b * ⌊a / b⌋`. -/
theorem pyMod_formula (v w : PyVal) (a b : ℚ) (hv : numVal v = some a)
    (hw : numVal w = some b) (hb : b ≠ 0) :
    ∃ r, pyMod v w = .ok r ∧ numVal r = some (a - b * ⌊a / b⌋) := by
  rcases numVal_cases hv with ⟨n, hcv, hna⟩ | hcv <;>
    rcases numVal_cases hw with ⟨m, hcw, hmb⟩ | hcw
  · have hm : m ≠ 0 := fun h0 => hb (by rw [← hmb, h0]; norm_num)
    refine ⟨.vInt (n - m * ⌊(n : ℚ) / (m : ℚ)⌋),
      by simp [pyMod, hcv, hcw, hm], ?_⟩
    simp only [numVal, numClass]
    rw [← hna, ← hmb]
    push_cast
    ring_nf
  · refine ⟨.vFloat ((n : ℚ) - b * ⌊(n : ℚ) / b⌋),
      by simp [pyMod, hcv, hcw, hb], ?_⟩
    simp [numVal, numClass, hna]
  · have hm : m ≠ 0 := fun h0 => hb (by rw [← hmb, h0]; norm_num)
    refine ⟨.vFloat (a - (m : ℚ) * ⌊a / (m : ℚ)⌋),
      by simp [pyMod, hcv, hcw, hm], ?_⟩
    simp [numVal, numClass, hmb]
  · refine ⟨.vFloat (a - b * ⌊a / b⌋),
      by simp [pyMod, hcv, hcw, hb], ?_⟩
    simp [numVal, numClass]

/-- The floor-based remainder is zero or has the sign of the
divisor. -/
theorem floorMod_sign (a b : ℚ) (hb : b ≠ 0) :
    a - b * ⌊a / b⌋ = 0 ∨ (0 < a - b * ⌊a / b⌋ ↔ 0 < b) := by
  have key : b * Int.fract (a / b) = a - b * ⌊a / b⌋ := by
    unfold Int.fract
    rw [mul_sub, mul_comm b (a / b), div_mul_cancel₀ a hb]
  rcases lt_or_eq_of_le (Int.fract_nonneg (a / b)) with hf | hf
  · right
    rw [← key, mul_pos_iff]
    constructor
    · rintro (⟨h1, _⟩ | ⟨_, h2⟩)
      · exact h1
      · linarith
    · intro h1
      exact Or.inl ⟨h1, hf⟩
  · left
    rw [← key, ← hf, mul_zero]

/-- Every binary operation on numeric operands either returns a numeric
value or raises one of the well-defined arithmetic errors
(zero-division, or `TypeError` for `%`/`//` on complex operands). -/
theorem applyBinOp_numeric (op : Operator) (v w : PyVal)
    (hv : isNumeric v = true) (hw : isNumeric w = true) :
    (∃ u, applyBinOp op v w = Except.ok u ∧ isNumeric u = true) ∨
    (∃ e, applyBinOp op v w = Except.error e ∧ arithRunError e = true) := by
  cases op <;> cases v <;> cases w <;>
    first
      | exact Bool.noConfusion hv
      | exact Bool.noConfusion hw
      | (simp only [applyBinOp, pyAdd, pySub, pyMul, pyDiv, pyMod, pyFloorDiv,
          pyPow, pyPow.pyFloatPow, numClass]
         first
           | (split_ifs <;>
               first
                 | exact Or.inl ⟨_, rfl, rfl⟩
                 | exact Or.inr ⟨_, rfl, rfl⟩)
           | exact Or.inl ⟨_, rfl, rfl⟩
           | exact Or.inr ⟨_, rfl, rfl⟩)

/-- Unary `+`/`-` on a numeric value yields a numeric value. -/
theorem pyUnary_numeric (op : UnaryOperator) (v : PyVal)
    (hop : op = .uAdd ∨ op = .uSub) (hv : isNumeric v = true) :
    ∃ u, pyUnary op v = Except.ok u ∧ isNumeric u = true := by
  rcases hop with rfl | rfl <;> cases v <;>
    first
      | exact Bool.noConfusion hv
      | exact ⟨_, rfl, rfl⟩

/-- Evaluating an arithmetic-shaped tree terminates with a numeric
value or one of the well-defined arithmetic/unsupported-call errors. -/
theorem eval_arithShaped :
    ∀ t : Expr, arithShaped t = true →
      (∃ v, eval_node t = Except.ok v ∧ isNumeric v = true) ∨
      (∃ e, eval_node t = Except.error e ∧ arithRunError e = true)
  | .constant c, h => by
      cases c with
      | cInt n => exact Or.inl ⟨.vInt n, rfl, rfl⟩
      | cFloat q => exact Or.inl ⟨.vFloat q, rfl, rfl⟩
      | cBool b => simp [arithShaped] at h
      | cStr s => simp [arithShaped] at h
      | cNone => simp [arithShaped] at h
  | .call f as, _ =>
      Or.inr ⟨.valueError ("Unsupported expression type: " ++
        astTypeName (.call f as)), rfl, by simp [arithRunError, astTypeName]⟩
  | .tuple es, _ =>
      Or.inr ⟨.valueError ("Unsupported expression type: " ++
        astTypeName (.tuple es)), rfl, by simp [arithRunError, astTypeName]⟩
  | .name s, h => by simp [arithShaped] at h
  | .compare l ps, h => by simp [arithShaped] at h
  | .boolOp k l r, h => by simp [arithShaped] at h
  | .binOp l op r, h => by
      simp only [arithShaped, Bool.and_eq_true] at h
      obtain ⟨hl, hr⟩ := h
      rcases eval_arithShaped l hl with ⟨v, hv, hnv⟩ | ⟨e, he, hne⟩
      · rcases eval_arithShaped r hr with ⟨w, hw, hnw⟩ | ⟨e, he, hne⟩
        · rcases applyBinOp_numeric op v w hnv hnw with
            ⟨u, hu, hnu⟩ | ⟨e, he, hne⟩
          · exact Or.inl ⟨u, by simp [eval_node, hv, hw, hu], hnu⟩
          · exact Or.inr ⟨e, by simp [eval_node, hv, hw, he], hne⟩
        · exact Or.inr ⟨e, by simp [eval_node, hv, he], hne⟩
      · exact Or.inr ⟨e, by simp [eval_node, he], hne⟩
  | .unaryOp op e, h => by
      simp only [arithShaped, Bool.and_eq_true, Bool.or_eq_true,
        beq_iff_eq] at h
      obtain ⟨hop, he⟩ := h
      rcases eval_arithShaped e he with ⟨v, hv, hnv⟩ | ⟨e', he', hne⟩
      · obtain ⟨u, hu, hnu⟩ := pyUnary_numeric op v hop hnv
        exact Or.inl ⟨u, by simp [eval_node, hv, hu], hnu⟩
      · exact Or.inr ⟨e', by simp [eval_node, he'], hne⟩

/-- Arithmetic tokens are never comparison operators. -/
theorem arithTok_cmpTok_none (t : Tok) (h : arithTok t = true) :
    cmpTok t = none := by
  cases t <;> simp_all [arithTok, cmpTok]


set_option maxHeartbeats 3200000 in
/-- Purity of the parser on arithmetic tokens: every level of the
recursive-descent parser, fed only arithmetic tokens, produces an
arithmetic-shaped tree and leaves only arithmetic tokens unconsumed
(`parseCmpRest` in addition consumes nothing and finds no comparison
pairs). -/
theorem parser_arith_pure : ∀ fuel : Nat,
    (∀ toks e rest, toks.all arithTok = true →
      parseExpression fuel toks = .ok (e, rest) →
      arithShaped e = true ∧ rest.all arithTok = true) ∧
    (∀ acc toks e rest, arithShaped acc = true → toks.all arithTok = true →
      parseOrRest fuel acc toks = .ok (e, rest) →
      arithShaped e = true ∧ rest.all arithTok = true) ∧
    (∀ toks e rest, toks.all arithTok = true →
      parseConjunction fuel toks = .ok (e, rest) →
      arithShaped e = true ∧ rest.all arithTok = true) ∧
    (∀ acc toks e rest, arithShaped acc = true → toks.all arithTok = true →
      parseAndRest fuel acc toks = .ok (e, rest) →
      arithShaped e = true ∧ rest.all arithTok = true) ∧
    (∀ toks e rest, toks.all arithTok = true →
      parseInversion fuel toks = .ok (e, rest) →
      arithShaped e = true ∧ rest.all arithTok = true) ∧
    (∀ toks e rest, toks.all arithTok = true →
      parseComparison fuel toks = .ok (e, rest) →
      arithShaped e = true ∧ rest.all arithTok = true) ∧
    (∀ toks ps rest, toks.all arithTok = true →
      parseCmpRest fuel toks = .ok (ps, rest) →
      ps = [] ∧ rest = toks) ∧
    (∀ toks e rest, toks.all arithTok = true →
      parseSum fuel toks = .ok (e, rest) →
      arithShaped e = true ∧ rest.all arithTok = true) ∧
    (∀ acc toks e rest, arithShaped acc = true → toks.all arithTok = true →
      parseSumRest fuel acc toks = .ok (e, rest) →
      arithShaped e = true ∧ rest.all arithTok = true) ∧
    (∀ toks e rest, toks.all arithTok = true →
      parseTerm fuel toks = .ok (e, rest) →
      arithShaped e = true ∧ rest.all arithTok = true) ∧
    (∀ acc toks e rest, arithShaped acc = true → toks.all arithTok = true →
      parseTermRest fuel acc toks = .ok (e, rest) →
      arithShaped e = true ∧ rest.all arithTok = true) ∧
    (∀ toks e rest, toks.all arithTok = true →
      parseFactor fuel toks = .ok (e, rest) →
      arithShaped e = true ∧ rest.all arithTok = true) ∧
    (∀ toks e rest, toks.all arithTok = true →
      parsePower fuel toks = .ok (e, rest) →
      arithShaped e = true ∧ rest.all arithTok = true) ∧
    (∀ toks e rest, toks.all arithTok = true →
      parsePrimary fuel toks = .ok (e, rest) →
      arithShaped e = true ∧ rest.all arithTok = true) ∧
    (∀ acc toks e rest, arithShaped acc = true → toks.all arithTok = true →
      parseCallRest fuel acc toks = .ok (e, rest) →
      arithShaped e = true ∧ rest.all arithTok = true) ∧
    (∀ toks args rest, toks.all arithTok = true →
      parseArgs fuel toks = .ok (args, rest) →
      rest.all arithTok = true) ∧
    (∀ acc toks args rest, toks.all arithTok = true →
      parseArgsRest fuel acc toks = .ok (args, rest) →
      rest.all arithTok = true) ∧
    (∀ toks e rest, toks.all arithTok = true →
      parseAtom fuel toks = .ok (e, rest) →
      arithShaped e = true ∧ rest.all arithTok = true) := by
  intro fuel
  induction fuel with
  | zero =>
      exact ⟨fun _ _ _ _ h => by simp [parseExpression] at h,
        fun _ _ _ _ _ _ h => by simp [parseOrRest] at h,
        fun _ _ _ _ h => by simp [parseConjunction] at h,
        fun _ _ _ _ _ _ h => by simp [parseAndRest] at h,
        fun _ _ _ _ h => by simp [parseInversion] at h,
        fun _ _ _ _ h => by simp [parseComparison] at h,
        fun _ _ _ _ h => by simp [parseCmpRest] at h,
        fun _ _ _ _ h => by simp [parseSum] at h,
        fun _ _ _ _ _ _ h => by simp [parseSumRest] at h,
        fun _ _ _ _ h => by simp [parseTerm] at h,
        fun _ _ _ _ _ _ h => by simp [parseTermRest] at h,
        fun _ _ _ _ h => by simp [parseFactor] at h,
        fun _ _ _ _ h => by simp [parsePower] at h,
        fun _ _ _ _ h => by simp [parsePrimary] at h,
        fun _ _ _ _ _ _ h => by simp [parseCallRest] at h,
        fun _ _ _ _ h => by simp [parseArgs] at h,
        fun _ _ _ _ _ h => by simp [parseArgsRest] at h,
        fun _ _ _ _ h => by simp [parseAtom] at h⟩
  | succ n ih =>
      obtain ⟨ihExpr, ihOr, ihConj, ihAnd, ihInv, ihCmp, ihCmpR, ihSum,
        ihSumR, ihTerm, ihTermR, ihFactor, ihPower, ihPrimary, ihCallR,
        ihArgs, ihArgsR, ihAtom⟩ := ih
      refine ⟨?_, ?_, ?_, ?_, ?_, ?_, ?_, ?_, ?_, ?_, ?_, ?_, ?_, ?_, ?_,
        ?_, ?_, ?_⟩
      · -- parseExpression
        intro toks e rest htoks hok
        simp only [parseExpression] at hok
        cases hc : parseConjunction n toks with
        | error e' => simp [hc] at hok
        | ok p =>
            obtain ⟨l, rest1⟩ := p
            simp only [hc, exceptBind_ok] at hok
            obtain ⟨hl, h1⟩ := ihConj toks l rest1 htoks hc
            exact ihOr l rest1 e rest hl h1 hok
      · -- parseOrRest
        intro acc toks e rest hacc htoks hok
        simp only [parseOrRest] at hok
        split at hok
        · simp only [List.all_cons, Bool.and_eq_true] at htoks
          exact absurd htoks.1 (by simp [arithTok])
        · simp only [Except.ok.injEq, Prod.mk.injEq] at hok
          obtain ⟨rfl, rfl⟩ := hok
          exact ⟨hacc, htoks⟩
      · -- parseConjunction
        intro toks e rest htoks hok
        simp only [parseConjunction] at hok
        cases hc : parseInversion n toks with
        | error e' => simp [hc] at hok
        | ok p =>
            obtain ⟨l, rest1⟩ := p
            simp only [hc, exceptBind_ok] at hok
            obtain ⟨hl, h1⟩ := ihInv toks l rest1 htoks hc
            exact ihAnd l rest1 e rest hl h1 hok
      · -- parseAndRest
        intro acc toks e rest hacc htoks hok
        simp only [parseAndRest] at hok
        split at hok
        · simp only [List.all_cons, Bool.and_eq_true] at htoks
          exact absurd htoks.1 (by simp [arithTok])
        · simp only [Except.ok.injEq, Prod.mk.injEq] at hok
          obtain ⟨rfl, rfl⟩ := hok
          exact ⟨hacc, htoks⟩
      · -- parseInversion
        intro toks e rest htoks hok
        simp only [parseInversion] at hok
        split at hok
        · simp only [List.all_cons, Bool.and_eq_true] at htoks
          exact absurd htoks.1 (by simp [arithTok])
        · exact ihCmp toks e rest htoks hok
      · -- parseComparison
        intro toks e rest htoks hok
        simp only [parseComparison] at hok
        cases hs : parseSum n toks with
        | error e' => simp [hs] at hok
        | ok p =>
            obtain ⟨l, rest1⟩ := p
            simp only [hs, exceptBind_ok] at hok
            obtain ⟨hl, h1⟩ := ihSum toks l rest1 htoks hs
            cases hcr : parseCmpRest n rest1 with
            | error e' => simp [hcr] at hok
            | ok pr =>
                obtain ⟨pairs, rest2⟩ := pr
                simp only [hcr, exceptBind_ok] at hok
                obtain ⟨hpairs, hrest2⟩ := ihCmpR rest1 pairs rest2 h1 hcr
                subst hpairs
                subst hrest2
                simp only [Except.ok.injEq, Prod.mk.injEq] at hok
                obtain ⟨rfl, rfl⟩ := hok
                exact ⟨hl, h1⟩
      · -- parseCmpRest
        intro toks ps rest htoks hok
        simp only [parseCmpRest] at hok
        split at hok
        · split at hok
          · rename_i op hcmp
            simp only [List.all_cons, Bool.and_eq_true] at htoks
            rw [arithTok_cmpTok_none _ htoks.1] at hcmp
            exact Option.noConfusion hcmp
          · simp only [Except.ok.injEq, Prod.mk.injEq] at hok
            obtain ⟨rfl, rfl⟩ := hok
            exact ⟨rfl, rfl⟩
        · simp only [Except.ok.injEq, Prod.mk.injEq] at hok
          obtain ⟨rfl, rfl⟩ := hok
          exact ⟨rfl, rfl⟩
      · -- parseSum
        intro toks e rest htoks hok
        simp only [parseSum] at hok
        cases hc : parseTerm n toks with
        | error e' => simp [hc] at hok
        | ok p =>
            obtain ⟨l, rest1⟩ := p
            simp only [hc, exceptBind_ok] at hok
            obtain ⟨hl, h1⟩ := ihTerm toks l rest1 htoks hc
            exact ihSumR l rest1 e rest hl h1 hok
      · -- parseSumRest
        intro acc toks e rest hacc htoks hok
        simp only [parseSumRest] at hok
        split at hok
        · rename_i t0 rest0
          split at hok
          · rename_i op hop
            simp only [List.all_cons, Bool.and_eq_true] at htoks
            obtain ⟨hth, htl⟩ := htoks
            cases ht : parseTerm n rest0 with
            | error e' => simp [ht] at hok
            | ok p =>
                obtain ⟨r, rest2⟩ := p
                simp only [ht, exceptBind_ok] at hok
                obtain ⟨hr, h2⟩ := ihTerm rest0 r rest2 htl ht
                exact ihSumR (.binOp acc op r) rest2 e rest
                  (by simp [arithShaped, hacc, hr]) h2 hok
          · simp only [Except.ok.injEq, Prod.mk.injEq] at hok
            obtain ⟨rfl, rfl⟩ := hok
            exact ⟨hacc, htoks⟩
        · simp only [Except.ok.injEq, Prod.mk.injEq] at hok
          obtain ⟨rfl, rfl⟩ := hok
          exact ⟨hacc, rfl⟩
      · -- parseTerm
        intro toks e rest htoks hok
        simp only [parseTerm] at hok
        cases hc : parseFactor n toks with
        | error e' => simp [hc] at hok
        | ok p =>
            obtain ⟨l, rest1⟩ := p
            simp only [hc, exceptBind_ok] at hok
            obtain ⟨hl, h1⟩ := ihFactor toks l rest1 htoks hc
            exact ihTermR l rest1 e rest hl h1 hok
      · -- parseTermRest
        intro acc toks e rest hacc htoks hok
        simp only [parseTermRest] at hok
        split at hok
        · rename_i t0 rest0
          split at hok
          · rename_i op hop
            simp only [List.all_cons, Bool.and_eq_true] at htoks
            obtain ⟨hth, htl⟩ := htoks
            cases ht : parseFactor n rest0 with
            | error e' => simp [ht] at hok
            | ok p =>
                obtain ⟨r, rest2⟩ := p
                simp only [ht, exceptBind_ok] at hok
                obtain ⟨hr, h2⟩ := ihFactor rest0 r rest2 htl ht
                exact ihTermR (.binOp acc op r) rest2 e rest
                  (by simp [arithShaped, hacc, hr]) h2 hok
          · simp only [Except.ok.injEq, Prod.mk.injEq] at hok
            obtain ⟨rfl, rfl⟩ := hok
            exact ⟨hacc, htoks⟩
        · simp only [Except.ok.injEq, Prod.mk.injEq] at hok
          obtain ⟨rfl, rfl⟩ := hok
          exact ⟨hacc, rfl⟩
      · -- parseFactor
        intro toks e rest htoks hok
        simp only [parseFactor] at hok
        split at hok
        · rename_i rest0
          simp only [List.all_cons, Bool.and_eq_true] at htoks
          obtain ⟨hth, htl⟩ := htoks
          cases hf : parseFactor n rest0 with
          | error e' => simp [hf] at hok
          | ok p =>
              obtain ⟨e1, rest2⟩ := p
              simp only [hf, exceptBind_ok, Except.ok.injEq,
                Prod.mk.injEq] at hok
              obtain ⟨rfl, rfl⟩ := hok
              obtain ⟨he1, h2⟩ := ihFactor rest0 e1 rest2 htl hf
              exact ⟨by simp [arithShaped, he1], h2⟩
        · rename_i rest0
          simp only [List.all_cons, Bool.and_eq_true] at htoks
          obtain ⟨hth, htl⟩ := htoks
          cases hf : parseFactor n rest0 with
          | error e' => simp [hf] at hok
          | ok p =>
              obtain ⟨e1, rest2⟩ := p
              simp only [hf, exceptBind_ok, Except.ok.injEq,
                Prod.mk.injEq] at hok
              obtain ⟨rfl, rfl⟩ := hok
              obtain ⟨he1, h2⟩ := ihFactor rest0 e1 rest2 htl hf
              exact ⟨by simp [arithShaped, he1], h2⟩
        · simp only [List.all_cons, Bool.and_eq_true] at htoks
          exact absurd htoks.1 (by simp [arithTok])
        · exact ihPower toks e rest htoks hok
      · -- parsePower
        intro toks e rest htoks hok
        simp only [parsePower] at hok
        cases hp : parsePrimary n toks with
        | error e' => simp [hp] at hok
        | ok p =>
            obtain ⟨b, rest1⟩ := p
            simp only [hp, exceptBind_ok] at hok
            obtain ⟨hb, h1⟩ := ihPrimary toks b rest1 htoks hp
            split at hok
            · rename_i rest2
              simp only [List.all_cons, Bool.and_eq_true] at h1
              obtain ⟨-, h2⟩ := h1
              cases hf : parseFactor n rest2 with
              | error e' => simp [hf] at hok
              | ok pf =>
                  obtain ⟨e2, rest3⟩ := pf
                  simp only [hf, exceptBind_ok, Except.ok.injEq,
                    Prod.mk.injEq] at hok
                  obtain ⟨rfl, rfl⟩ := hok
                  obtain ⟨he2, h3⟩ := ihFactor rest2 e2 rest3 h2 hf
                  exact ⟨by simp [arithShaped, hb, he2], h3⟩
            · simp only [Except.ok.injEq, Prod.mk.injEq] at hok
              obtain ⟨rfl, rfl⟩ := hok
              exact ⟨hb, h1⟩
      · -- parsePrimary
        intro toks e rest htoks hok
        simp only [parsePrimary] at hok
        cases ha : parseAtom n toks with
        | error e' => simp [ha] at hok
        | ok p =>
            obtain ⟨a, rest1⟩ := p
            simp only [ha, exceptBind_ok] at hok
            obtain ⟨hA, h1⟩ := ihAtom toks a rest1 htoks ha
            exact ihCallR a rest1 e rest hA h1 hok
      · -- parseCallRest
        intro acc toks e rest hacc htoks hok
        simp only [parseCallRest] at hok
        split at hok
        · rename_i rest0
          simp only [List.all_cons, Bool.and_eq_true] at htoks
          obtain ⟨-, htl⟩ := htoks
          cases ha : parseArgs n rest0 with
          | error e' => simp [ha] at hok
          | ok p =>
              obtain ⟨args, rest2⟩ := p
              simp only [ha, exceptBind_ok] at hok
              have h2 := ihArgs rest0 args rest2 htl ha
              exact ihCallR (.call acc args) rest2 e rest rfl h2 hok
        · simp only [Except.ok.injEq, Prod.mk.injEq] at hok
          obtain ⟨rfl, rfl⟩ := hok
          exact ⟨hacc, htoks⟩
      · -- parseArgs
        intro toks args rest htoks hok
        simp only [parseArgs] at hok
        split at hok
        · simp only [List.all_cons, Bool.and_eq_true] at htoks
          simp only [Except.ok.injEq, Prod.mk.injEq] at hok
          obtain ⟨rfl, rfl⟩ := hok
          exact htoks.2
        · cases hpe : parseExpression n toks with
          | error e' => simp [hpe] at hok
          | ok p =>
              obtain ⟨e1, rest1⟩ := p
              simp only [hpe, exceptBind_ok] at hok
              obtain ⟨-, h1⟩ := ihExpr toks e1 rest1 htoks hpe
              exact ihArgsR [e1] rest1 args rest h1 hok
      · -- parseArgsRest
        intro acc toks args rest htoks hok
        simp only [parseArgsRest] at hok
        split at hok
        · simp only [List.all_cons, Bool.and_eq_true] at htoks
          exact absurd htoks.1 (by simp [arithTok])
        · simp only [List.all_cons, Bool.and_eq_true] at htoks
          exact absurd htoks.1 (by simp [arithTok])
        · simp only [List.all_cons, Bool.and_eq_true] at htoks
          simp only [Except.ok.injEq, Prod.mk.injEq] at hok
          obtain ⟨rfl, rfl⟩ := hok
          exact htoks.2
        · exact Except.noConfusion hok
      · -- parseAtom
        intro toks e rest htoks hok
        simp only [parseAtom] at hok
        split at hok
        · simp only [List.all_cons, Bool.and_eq_true] at htoks
          simp only [Except.ok.injEq, Prod.mk.injEq] at hok
          obtain ⟨rfl, rfl⟩ := hok
          exact ⟨rfl, htoks.2⟩
        · simp only [List.all_cons, Bool.and_eq_true] at htoks
          simp only [Except.ok.injEq, Prod.mk.injEq] at hok
          obtain ⟨rfl, rfl⟩ := hok
          exact ⟨rfl, htoks.2⟩
        · simp only [List.all_cons, Bool.and_eq_true] at htoks
          exact absurd htoks.1 (by simp [arithTok])
        · simp only [List.all_cons, Bool.and_eq_true] at htoks
          exact absurd htoks.1 (by simp [arithTok])
        · simp only [List.all_cons, Bool.and_eq_true] at htoks
          exact absurd htoks.1 (by simp [arithTok])
        · simp only [List.all_cons, Bool.and_eq_true] at htoks
          exact absurd htoks.1 (by simp [arithTok])
        · simp only [List.all_cons, Bool.and_eq_true] at htoks
          exact absurd htoks.1 (by simp [arithTok])
        · -- empty tuple ()
          simp only [List.all_cons, Bool.and_eq_true] at htoks
          simp only [Except.ok.injEq, Prod.mk.injEq] at hok
          obtain ⟨rfl, rfl⟩ := hok
          exact ⟨rfl, htoks.2.2⟩
        · rename_i rest0 hne
          simp only [List.all_cons, Bool.and_eq_true] at htoks
          obtain ⟨-, htl⟩ := htoks
          cases hpe : parseExpression n rest0 with
          | error e' => simp [hpe] at hok
          | ok p =>
              obtain ⟨e1, rest2⟩ := p
              simp only [hpe, exceptBind_ok] at hok
              obtain ⟨he1, h2⟩ := ihExpr rest0 e1 rest2 htl hpe
              split at hok
              · rename_i rest3
                simp only [Except.ok.injEq, Prod.mk.injEq] at hok
                obtain ⟨rfl, rfl⟩ := hok
                simp only [List.all_cons, Bool.and_eq_true] at h2
                exact ⟨he1, h2.2⟩
              · -- a comma after the parenthesised expression is not an
                -- arithmetic token
                simp only [List.all_cons, Bool.and_eq_true] at h2
                exact absurd h2.1 (by simp [arithTok])
              · exact Except.noConfusion hok
        · exact Except.noConfusion hok

/-- A successful parse of an arithmetic-token input yields an
arithmetic-shaped tree. -/
theorem astParse_arith (s : String) (t : Expr) (hs : arithInput s = true)
    (hp : astParse s = .ok t) : arithShaped t = true := by
  unfold arithInput at hs
  unfold astParse at hp
  cases htk : tokenize s with
  | error e => rw [htk] at hs; simp at hs
  | ok toks =>
      rw [htk] at hs hp
      simp only [exceptBind_ok] at hp
      cases hpe : parseExpression (32 * (toks.length + 1)) toks with
      | error e => simp [hpe] at hp
      | ok p =>
          obtain ⟨e, rest⟩ := p
          simp only [hpe, exceptBind_ok] at hp
          obtain ⟨he, hrest⟩ := (parser_arith_pure (32 * (toks.length + 1))).1
            toks e rest hs hpe
          split at hp
          · simp only [Except.ok.injEq] at hp
            subst hp
            exact he
          · -- a bare top-level tuple needs a comma, which is not an
            -- arithmetic token
            simp only [List.all_cons, Bool.and_eq_true] at hrest
            exact absurd hrest.1 (by simp [arithTok])
          · exact Except.noConfusion hp

